import Mathlib

/- Verification of the RGBD VAE training code: shallow embedding of
   src/rgbd_vae.py and src/rgbd_pvae_train.py. -/

set_option maxRecDepth 4000

open scoped BigOperators

/- ## Real-valued primitives used by the networks and distributions -/

/-- The sigmoid activation applied by both Decoders as their final step. -/
noncomputable def sigmoid (t : ℝ) : ℝ := 1 / (1 + Real.exp (-t))

/-- Log-density of a Normal distribution with mean m, scale s at point z
(the scale is the second argument of pyro dist.Normal). -/
noncomputable def normalLogPdf (m s z : ℝ) : ℝ :=
  -((z - m) ^ 2 / (2 * s ^ 2)) - Real.log (s * Real.sqrt (2 * Real.pi))

/-- Log-probability of a Bernoulli distribution with success probability p
at observation x, as pyro dist.Bernoulli computes it for probs parameters. -/
noncomputable def bernoulliLogPmf (p x : ℝ) : ℝ := x * Real.log p + (1 - x) * Real.log (1 - p)

/- ## Shape semantics of the torch layers used by the two files -/

/-- Tensor shape (N, C, H, W). -/
abbrev Shape4 := ℕ × ℕ × ℕ × ℕ

/-- Tensor shape (N, C, F). -/
abbrev Shape3 := ℕ × ℕ × ℕ

/-- Tensor shape (N, F). -/
abbrev Shape2 := ℕ × ℕ

/-- Output spatial size of torch nn.Conv2d with kernel k, padding p, stride s. -/
def conv2dOut (h k p s : ℕ) : ℕ := (h + 2 * p - k) / s + 1

/-- Output spatial size of torch nn.ConvTranspose2d with kernel k, padding p,
stride s (dilation 1, no output padding). -/
def convTranspose2dOut (h k p s : ℕ) : ℕ := (h - 1) * s + k - 2 * p

/-- Shape behaviour of nn.Conv2d(cin, cout, k, padding, stride): requires the
input channel count to match and the padded input to cover the kernel. -/
def conv2dShape (cin cout k p s : ℕ) : Shape4 → Option Shape4
  | (n, c, hh, ww) =>
    if c == cin && k ≤ hh + 2 * p && k ≤ ww + 2 * p then
      some (n, cout, conv2dOut hh k p s, conv2dOut ww k p s)
    else none

/-- Shape behaviour of nn.ConvTranspose2d(cin, cout, k, stride). -/
def convTranspose2dShape (cin cout k p s : ℕ) : Shape4 → Option Shape4
  | (n, c, hh, ww) =>
    if c == cin && 1 ≤ hh && 1 ≤ ww then
      some (n, cout, convTranspose2dOut hh k p s, convTranspose2dOut ww k p s)
    else none

/-- Shape behaviour of nn.UpsamplingNearest2d(scale_factor=2). -/
def upsample2Shape : Shape4 → Shape4
  | (n, c, hh, ww) => (n, c, 2 * hh, 2 * ww)

/-- Shape behaviour of nn.Linear(inF, outF) on a 2-d input. -/
def linearShape (inF outF : ℕ) : Shape2 → Option Shape2
  | (n, f) => if f == inF then some (n, outF) else none

/-- Shape behaviour of nn.Linear(inF, outF) applied to the last axis of a
3-d input, as the fc layer of the rgbd_vae.py Encoder is. -/
def linearLastShape (inF outF : ℕ) : Shape3 → Option Shape3
  | (n, c, f) => if f == inF then some (n, c, outF) else none

/-- Shape behaviour of Tensor.flatten(1). -/
def flattenShape : Shape4 → Shape2
  | (n, c, hh, ww) => (n, c * hh * ww)

/-- Shape behaviour of Tensor.flatten(2). -/
def flatten2Shape : Shape4 → Shape3
  | (n, c, hh, ww) => (n, c, hh * ww)

/-- Shape behaviour of z.view(z.shape[0], z.shape[1], 1, 1). -/
def viewNC11Shape : Shape2 → Shape4
  | (n, c) => (n, c, 1, 1)

/-- Shape behaviour of the chain of Conv2d(depths[i], depths[i+1], k, padding,
stride) blocks built by the loops over consecutive entries of a depth list in
both Encoders (BatchNorm, InstanceNorm and the activations preserve shape). -/
def convStack (ds : List ℕ) (k p s : ℕ) (sh : Shape4) : Option Shape4 :=
  (ds.zip ds.tail).foldl (fun acc pr => acc >>= conv2dShape pr.1 pr.2 k p s) (some sh)

/-- Shape behaviour of one rgbd_pvae_train.py Decoder block:
UpsamplingNearest2d(2) then Conv2d(cin, cout, 3, padding=1). -/
def upConvBlockShape (cin cout : ℕ) (sh : Shape4) : Option Shape4 :=
  conv2dShape cin cout 3 1 1 (upsample2Shape sh)

/-- Shape behaviour of the rgbd_pvae_train.py Decoder conv loop over
consecutive entries of its depth list. -/
def upConvStack (ds : List ℕ) (sh : Shape4) : Option Shape4 :=
  (ds.zip ds.tail).foldl (fun acc pr => acc >>= upConvBlockShape pr.1 pr.2) (some sh)

/-- Shape behaviour of ResBlock(cin, cout) from rgbd_vae.py: two
Conv2d(in_channels, out_channels, 3, padding=1) layers (spatial preserving). -/
def resBlockShape (cin cout : ℕ) (sh : Shape4) : Option Shape4 :=
  conv2dShape cin cout 3 1 1 sh >>= conv2dShape cin cout 3 1 1

/- ## rgbd_pvae_train.py Encoder and Decoder, shape level -/

/-- Shape behaviour of the rgbd_pvae_train.py Encoder conv stack:
depths [4, 32, 64, 128, 256, 512], each block Conv2d(k=4, padding=1, stride=2). -/
def pvaeEncoderConvsShape (sh : Shape4) : Option Shape4 :=
  convStack [4, 32, 64, 128, 256, 512] 4 1 2 sh

/-- Shape behaviour of rgbd_pvae_train.py Encoder.forward: conv stack,
flatten(1), then the two Linear(512*4**2, z_dim) heads fc1 and fc2. -/
def pvaeEncoderForwardShape (zdim : ℕ) (sh : Shape4) : Option (Shape2 × Shape2) := do
  let c ← pvaeEncoderConvsShape sh
  let flat := flattenShape c
  let mu ← linearShape (512 * 4 ^ 2) zdim flat
  let lv ← linearShape (512 * 4 ^ 2) zdim flat
  return (mu, lv)

/-- Shape behaviour of fc(z).view(z.shape[0], -1, 4, 4) in the
rgbd_pvae_train.py Decoder. -/
def pvaeDecoderViewShape : Shape2 → Option Shape4
  | (n, f) => if f % (4 * 4) == 0 then some (n, f / (4 * 4), 4, 4) else none

/-- Shape behaviour of rgbd_pvae_train.py Decoder.forward:
Linear(z_dim, 512*4**2), view to (N, 512, 4, 4), then five
upsample-conv blocks over depths [512, 256, 128, 64, 32, 4]. -/
def pvaeDecoderForwardShape (zdim : ℕ) (sh : Shape2) : Option Shape4 := do
  let f ← linearShape zdim (512 * 4 ^ 2) sh
  let v ← pvaeDecoderViewShape f
  upConvStack [512, 256, 128, 64, 32, 4] v

/- ## rgbd_vae.py Encoder and Decoder, shape level -/

/-- Shape behaviour of rgbd_vae.py Encoder.forward: conv1, the stride-2 conv
stack over depths [64, 76, 88, 100, 128, 200], two ResBlocks, conv2, conv3,
flatten(2) and the Linear(4, 2) head producing (mu, log var) stacked in the
last axis. -/
def rgbdVaeEncoderForwardShape (sh : Shape4) : Option Shape3 := do
  let a ← conv2dShape 4 64 3 1 1 sh
  let b ← convStack [64, 76, 88, 100, 128, 200] 3 1 2 a
  let c ← resBlockShape 200 200 b
  let d ← resBlockShape 200 200 c
  let e ← conv2dShape 200 250 3 1 2 d
  let f ← conv2dShape 250 300 3 1 2 e
  linearLastShape 4 2 (flatten2Shape f)

/-- Shape behaviour of rgbd_vae.py Decoder.forward: view to (N, C, 1, 1),
conv1 and conv2 (transposed convs with kernels 4 and 3), two ResBlocks, the
transposed-conv loop (kernel 3 for the first two blocks, kernel 2 for the
last three, all stride 2), and the final Conv2d(64, 4, 3, padding=1). -/
def rgbdVaeDecoderForwardShape (sh : Shape2) : Option Shape4 := do
  let a := viewNC11Shape sh
  let b ← convTranspose2dShape 300 250 4 0 1 a
  let c ← convTranspose2dShape 250 200 3 0 1 b
  let d ← resBlockShape 200 200 c
  let e ← resBlockShape 200 200 d
  let f ← convTranspose2dShape 200 128 3 0 2 e
  let g ← convTranspose2dShape 128 100 3 0 2 f
  let h ← convTranspose2dShape 100 88 2 0 2 g
  let i ← convTranspose2dShape 88 76 2 0 2 h
  let j ← convTranspose2dShape 76 64 2 0 2 i
  conv2dShape 64 4 3 1 1 j

/- ## Guide scale and reparameterized sampling (both files, VAE.guide) -/

/-- The scale argument the guide passes to dist.Normal:
torch.exp(z_log_var) applied to the second Encoder head output. -/
noncomputable def guideScale (lv : ℝ) : ℝ := Real.exp lv

/-- Reparameterized sample of pyro dist.Normal(loc, scale): loc + scale * eps
with eps drawn from Normal(0, 1). -/
noncomputable def normalRSample (loc scale eps : ℝ) : ℝ := loc + scale * eps

/-- One latent dimension sampled by the guide, as a function of the Encoder
outputs mu and z_log_var and the standard normal noise eps. -/
noncomputable def guideSample (mu lv eps : ℝ) : ℝ := normalRSample mu (guideScale lv) eps

/- ## The observation site of VAE.model in each file -/

/-- A pyro sample statement with an obs keyword: the distribution parameter
tensor and the observed value tensor. -/
structure ObsSite (α : Type) where
  distParam : α
  observed : α

/-- The obs site built by rgbd_vae.py VAE.model: the source reassigns
x = self.decoder(z) and then executes
pyro.sample with the Bernoulli(x).to_event(3) distribution and obs=x. -/
def rgbdVaeModelObsSite {α β : Type} (decoder : β → α) (x : α) (z : β) : ObsSite α :=
  let x := decoder z
  { distParam := x, observed := x }

/-- The obs site built by rgbd_pvae_train.py VAE.model: the source sets
x_means = self.decoder(z) and then executes
pyro.sample with the Bernoulli(x_means).to_event(3) distribution and obs=x. -/
def pvaeModelObsSite {α β : Type} (decoder : β → α) (x : α) (z : β) : ObsSite α :=
  let x_means := decoder z
  { distParam := x_means, observed := x }

/- ## The train function of rgbd_pvae_train.py -/

/-- One iteration of the rgbd_pvae_train.py train loop body: the statement
epoch_loss += svi.step(x) sits inside the if torch.cuda.is_available() block,
so it runs only when cuda is available. The accumulator carries the loss sum
and the number of svi.step invocations. -/
def pvaeTrainIter {α : Type} (cuda : Bool) (step : α → ℚ) (acc : ℚ × ℕ) (x : α) : ℚ × ℕ :=
  if cuda then (acc.1 + step x, acc.2 + 1) else acc

/-- The rgbd_pvae_train.py train function: fold the loop body over the
minibatches and divide the accumulated loss by the dataset size. Returns the
returned loss together with the number of svi.step invocations. -/
def pvaeTrain {α : Type} (cuda : Bool) (step : α → ℚ) (batches : List α) (dsize : ℚ) : ℚ × ℕ :=
  let r := batches.foldl (pvaeTrainIter cuda step) (0, 0)
  (r.1 / dsize, r.2)

/- ## The evaluation-epoch driver of rgbd_pvae_train.py -/

/-- An average evaluation loss as a python float: a finite rational, NaN, or
an infinity. -/
inductive EvalLoss where
  | finite (q : ℚ)
  | nan
  | posInf
  | negInf
deriving DecidableEq

/-- IEEE semantics of the python test total_epoch_loss_test < 0. -/
def ltZero : EvalLoss → Bool
  | .finite q => decide (q < 0)
  | .nan => false
  | .posInf => false
  | .negInf => true

/-- IEEE semantics of the python comparison a < b on floats. -/
def flt : EvalLoss → EvalLoss → Bool
  | .nan, _ => false
  | _, .nan => false
  | .finite a, .finite b => decide (a < b)
  | .finite _, .posInf => true
  | .finite _, .negInf => false
  | .negInf, .negInf => false
  | .negInf, _ => true
  | .posInf, _ => false

/-- The predicate named by the spec: the loss is non-finite or negative. -/
def isNonFiniteOrNeg : EvalLoss → Bool
  | .finite q => decide (q < 0)
  | _ => true

/-- State of the rgbd_pvae_train.py epoch loop that the claims mention: the
best watermark, the list of evaluation epochs at which the checkpoint
(optimizer state and Encoder+Decoder weights) was written, and whether the
negative-loss break has fired. -/
structure DriverState where
  best : EvalLoss
  saves : List ℕ
  aborted : Bool
deriving DecidableEq

/-- Initial driver state: best = float inf, nothing saved. -/
def driverInit : DriverState := { best := .posInf, saves := [], aborted := false }

/-- One evaluation epoch of the rgbd_pvae_train.py loop: first the test
if total_epoch_loss_test < 0: break, then
if total_epoch_loss_test < best: best = total_epoch_loss_test; save both
checkpoint files. Epochs after a break do not run. -/
def driverStep (s : DriverState) (epoch : ℕ) (loss : EvalLoss) : DriverState :=
  if s.aborted then s
  else if ltZero loss then { s with aborted := true }
  else if flt loss s.best then { best := loss, saves := s.saves ++ [epoch], aborted := false }
  else s

/-- Run the evaluation epochs in order, numbering them from e. -/
def runDriverAux : DriverState → ℕ → List EvalLoss → DriverState
  | s, _, [] => s
  | s, e, l :: ls => runDriverAux (driverStep s e l) (e + 1) ls

/-- Run the driver over the successive evaluation losses of a training run. -/
def runDriver (ls : List EvalLoss) : DriverState := runDriverAux driverInit 0 ls

/- ## Spec-side description of the checkpoint policy (for claim C7) -/

/-- Minimum of a list of rationals, none for an empty list. -/
def minOf : List ℚ → Option ℚ
  | [] => none
  | q :: rest => some ((minOf rest).elim q (fun m => min q m))

/-- A finite rational as an EvalLoss, with none standing for the initial
float inf watermark. -/
def embedOpt : Option ℚ → EvalLoss
  | none => .posInf
  | some q => .finite q

/-- Modelled from the spec: the evaluation epochs at which a checkpoint must
be written, namely exactly those whose loss is strictly lower than every
previously observed evaluation loss. The first argument lists the losses
already observed. -/
def savedEpochs : List ℚ → List ℚ → List ℕ
  | _, [] => []
  | prev, q :: rest =>
    if ∀ p ∈ prev, q < p then
      prev.length :: savedEpochs (prev ++ [q]) rest
    else
      savedEpochs (prev ++ [q]) rest

/- ## Plate and event log-density semantics (claim C8) -/

/-- Log-density contribution of a pyro plate over the batch axis: the sum of
the per-example scalars (examples are independent). -/
noncomputable def plateLogProb {N : ℕ} (per : Fin N → ℝ) : ℝ := ∑ n, per n

/-- Log-density of a distribution collapsed by to_event over an event index
set: the sum of the per-entry base log-densities, one scalar per example. -/
noncomputable def toEventLogProb {ι : Type} [Fintype ι] (base : ι → ℝ) : ℝ := ∑ i, base i

/-- Trace log-density of rgbd_pvae_train.py VAE.model: inside
the pyro.plate over the N examples, the latent site Normal(0, 1).to_event(1) over D
dimensions scored at z, plus the obs site
Bernoulli(decoder(z)).to_event(3) over the 4 x H x W entries scored at x. -/
noncomputable def pvaeModelLogJoint (N D H W : ℕ)
    (decoder : (Fin N → Fin D → ℝ) → Fin N → Fin 4 → Fin H → Fin W → ℝ)
    (x : Fin N → Fin 4 → Fin H → Fin W → ℝ) (z : Fin N → Fin D → ℝ) : ℝ :=
  plateLogProb (fun n =>
    toEventLogProb (fun d : Fin D => normalLogPdf 0 1 (z n d)) +
    toEventLogProb (fun e : Fin 4 × Fin H × Fin W =>
      bernoulliLogPmf (decoder z n e.1 e.2.1 e.2.2) (x n e.1 e.2.1 e.2.2)))

/-- Trace log-density of rgbd_pvae_train.py VAE.guide: inside
the pyro.plate over the N examples, the latent site
Normal(z_mu, torch.exp(z_log_var)).to_event(1) over D dimensions scored
at z. -/
noncomputable def pvaeGuideLogProb (N D : ℕ)
    (mu lv : Fin N → Fin D → ℝ) (z : Fin N → Fin D → ℝ) : ℝ :=
  plateLogProb (fun n =>
    toEventLogProb (fun d : Fin D => normalLogPdf (mu n d) (Real.exp (lv n d)) (z n d)))

/- ## The train and evaluate functions of rgbd_vae.py (claim C10) -/

/-- A python exception raised by the embedded code. -/
inductive PyError where
  | attributeError (modName attrName : String)
deriving DecidableEq

/-- Attribute lookup and call of a boolean-returning member of torch.cuda:
is_available returns whether cuda is present, and any other attribute name
raises AttributeError. -/
def torchCudaBoolAttr (cudaAvail : Bool) (name : String) : Except PyError Bool :=
  if name == "is_available" then .ok cudaAvail
  else .error (.attributeError "torch.cuda" name)

/-- Loop of rgbd_vae.py train: each iteration first evaluates
torch.cuda.is_availabe() (the attribute name as written in the source), and
only inside that if block moves x to cuda and accumulates svi.step(x). -/
def rgbdVaeTrainLoop {α : Type} (cudaAvail : Bool) (step : α → ℚ) :
    List α → ℚ → Except PyError ℚ
  | [], acc => .ok acc
  | x :: xs, acc => do
    let avail ← torchCudaBoolAttr cudaAvail "is_availabe"
    if avail then rgbdVaeTrainLoop cudaAvail step xs (acc + step x)
    else rgbdVaeTrainLoop cudaAvail step xs acc

/-- The rgbd_vae.py train function: run the loop from epoch_loss = 0 and
divide by the dataset size. -/
def rgbdVaeTrain {α : Type} (cudaAvail : Bool) (step : α → ℚ)
    (batches : List α) (dsize : ℚ) : Except PyError ℚ := do
  let total ← rgbdVaeTrainLoop cudaAvail step batches 0
  return total / dsize

/-- Loop of rgbd_vae.py evaluate: each iteration first evaluates
torch.cuda.is_availabe() (as written in the source), moves x to cuda inside
the if block, and accumulates svi.evaluate_loss(x) outside it. -/
def rgbdVaeEvaluateLoop {α : Type} (cudaAvail : Bool) (evalLoss : α → ℚ) :
    List α → ℚ → Except PyError ℚ
  | [], acc => .ok acc
  | x :: xs, acc => do
    let _avail ← torchCudaBoolAttr cudaAvail "is_availabe"
    rgbdVaeEvaluateLoop cudaAvail evalLoss xs (acc + evalLoss x)

/-- The rgbd_vae.py evaluate function: run the loop from test_loss = 0 and
divide by the dataset size. -/
def rgbdVaeEvaluate {α : Type} (cudaAvail : Bool) (evalLoss : α → ℚ)
    (batches : List α) (dsize : ℚ) : Except PyError ℚ := do
  let total ← rgbdVaeEvaluateLoop cudaAvail evalLoss batches 0
  return total / dsize

/- ## Theorems -/

/-- C1: rgbd_pvae_train.py VAE.model passes the original observed batch x as
the obs value of the Bernoulli observation site, for every decoder, batch and
latent; rgbd_vae.py VAE.model instead passes the decoder output, which at the
entry level is a sigmoid value and hence differs from an observed entry 0, so
the code of rgbd_vae.py contradicts the claim while rgbd_pvae_train.py
satisfies it. -/
theorem c1_model_observed_value :
    (∀ (α β : Type) (decoder : β → α) (x : α) (z : β),
        (pvaeModelObsSite decoder x z).observed = x) ∧
    (rgbdVaeModelObsSite sigmoid (0 : ℝ) (0 : ℝ)).observed = sigmoid 0 ∧
    sigmoid 0 ≠ 0 := by
  refine ⟨fun α β decoder x z => rfl, rfl, ?_⟩
  simp [sigmoid, Real.exp_zero]

/-- C2 counterexample: the claim says the guide samples z = mu + sigma * eps
with sigma = sqrt(exp(log var)); at mu = 0, log var = 2, eps = 1 the code
produces exp 2 while the claim predicts sqrt(exp 2) = exp 1, and these
differ. -/
theorem c2_guide_scale_counterexample :
    guideSample 0 2 1 ≠ 0 + Real.sqrt (Real.exp 2) * 1 := by
  have h1 : Real.sqrt (Real.exp 2) = Real.exp 1 := by
    have h2 : Real.exp 2 = Real.exp 1 * Real.exp 1 := by
      rw [← Real.exp_add]; norm_num
    rw [h2, Real.sqrt_mul_self (le_of_lt (Real.exp_pos 1))]
  have h3 : Real.exp 1 < Real.exp 2 := Real.exp_lt_exp.mpr (by norm_num)
  have h4 : guideSample 0 2 1 = Real.exp 2 := by
    simp [guideSample, normalRSample, guideScale]
  have h5 : (0 : ℝ) + Real.exp 1 * 1 = Real.exp 1 := by ring
  rw [h4, h1, h5]
  exact ne_of_gt h3

/-- C2 amended: the guide passes torch.exp(z_log_var) directly as the scale
of dist.Normal, so the latent sampled by the guide equals
mu + exp(z_log_var) * eps (not mu + exp(z_log_var / 2) * eps), and this scale
is strictly positive for every real Encoder output. -/
theorem c2_guide_scale_amended (mu lv eps : ℝ) :
    guideSample mu lv eps = mu + Real.exp lv * eps ∧ 0 < guideScale lv :=
  ⟨rfl, Real.exp_pos lv⟩

/-- C3: on a batch of shape (N, 4, 216, 216) the rgbd_pvae_train.py Encoder
forward pass fails: the conv stack reduces 216 to a 6 x 6 grid, so the
flattened feature count is 512 * 36 = 18432, which the Linear(512 * 4 ** 2 =
8192, z_dim) heads reject; the same architecture succeeds on (N, 4, 128, 128),
returning (N, D) twice, which is the resolution the layer dimensions encode.
The rgbd_vae.py Encoder does accept 216 x 216, returning a single stacked
(N, 300, 2) tensor. -/
theorem c3_encoder_216_shape (n : ℕ) :
    pvaeEncoderForwardShape 400 (n, 4, 216, 216) = none ∧
    pvaeEncoderForwardShape 400 (n, 4, 128, 128) = some ((n, 400), (n, 400)) ∧
    rgbdVaeEncoderForwardShape (n, 4, 216, 216) = some (n, 300, 2) := by
  refine ⟨rfl, rfl, rfl⟩

/-- C4: on a latent batch of shape (N, 400) the rgbd_pvae_train.py Decoder
returns shape (N, 4, 128, 128), not (N, 4, 216, 216) as the claim states;
the rgbd_vae.py Decoder on (N, 300) does return (N, 4, 216, 216). -/
theorem c4_decoder_output_shape (n : ℕ) :
    pvaeDecoderForwardShape 400 (n, 400) = some (n, 4, 128, 128) ∧
    pvaeDecoderForwardShape 400 (n, 400) ≠ some (n, 4, 216, 216) ∧
    rgbdVaeDecoderForwardShape (n, 300) = some (n, 4, 216, 216) := by
  have e : pvaeDecoderForwardShape 400 (n, 400) = some (n, 4, 128, 128) := rfl
  refine ⟨e, ?_, rfl⟩
  rw [e]
  intro h
  have h2 : ((n, 4, 128, 128) : Shape4) = (n, 4, 216, 216) := Option.some.inj h
  have h3 : (128 : ℕ) = 216 := congrArg (fun t : Shape4 => t.2.2.1) h2
  norm_num at h3

/-- Folding the rgbd_pvae_train.py loop body with cuda unavailable leaves the
accumulator untouched. -/
theorem pvaeTrainIter_foldl_noCuda {α : Type} (step : α → ℚ) (bs : List α) (acc : ℚ × ℕ) :
    bs.foldl (pvaeTrainIter false step) acc = acc := by
  induction bs generalizing acc with
  | nil => rfl
  | cons x xs ih =>
    rw [List.foldl_cons, show pvaeTrainIter false step acc x = acc from rfl]
    exact ih acc

/-- Folding the rgbd_pvae_train.py loop body with cuda available performs one
svi.step per minibatch. -/
theorem pvaeTrainIter_foldl_cuda_count {α : Type} (step : α → ℚ) (bs : List α) (acc : ℚ × ℕ) :
    (bs.foldl (pvaeTrainIter true step) acc).2 = acc.2 + bs.length := by
  induction bs generalizing acc with
  | nil => simp
  | cons x xs ih =>
    simp only [List.foldl, List.length_cons]
    rw [ih]
    simp [pvaeTrainIter]
    omega

/-- C5: because epoch_loss += svi.step(x) sits inside the
if torch.cuda.is_available() block, the rgbd_pvae_train.py train function
performs zero SVI steps and returns loss 0 whenever cuda is unavailable, for
every loader; with cuda available it performs exactly one step per minibatch.
The claim that the same code path runs with only tensor placement differing
is therefore false on the code. -/
theorem c5_train_steps_cuda_gated {α : Type} (step : α → ℚ) (batches : List α) (dsize : ℚ) :
    (pvaeTrain false step batches dsize).2 = 0 ∧
    (pvaeTrain false step batches dsize).1 = 0 ∧
    (pvaeTrain true step batches dsize).2 = batches.length := by
  refine ⟨?_, ?_, ?_⟩
  · simp [pvaeTrain, pvaeTrainIter_foldl_noCuda]
  · simp [pvaeTrain, pvaeTrainIter_foldl_noCuda]
  · simp [pvaeTrain, pvaeTrainIter_foldl_cuda_count]

/-- C8: the trace log-density of rgbd_pvae_train.py VAE.model decomposes as a
sum over examples of one per-example scalar: the sum of the D per-dimension
standard normal log-densities at z plus the sum of the per-entry Bernoulli
log-probabilities over all 4 x H x W entries; and the guide log-density is
the sum over examples of the sum of the D per-dimension Normal log-densities
at z. -/
theorem c8_event_plate_decomposition (N D H W : ℕ)
    (decoder : (Fin N → Fin D → ℝ) → Fin N → Fin 4 → Fin H → Fin W → ℝ)
    (x : Fin N → Fin 4 → Fin H → Fin W → ℝ) (z : Fin N → Fin D → ℝ)
    (mu lv : Fin N → Fin D → ℝ) :
    pvaeModelLogJoint N D H W decoder x z =
      (∑ n, ((∑ d, normalLogPdf 0 1 (z n d)) +
        ∑ c, ∑ hh, ∑ w, bernoulliLogPmf (decoder z n c hh w) (x n c hh w))) ∧
    pvaeGuideLogProb N D mu lv z =
      ∑ n, ∑ d, normalLogPdf (mu n d) (Real.exp (lv n d)) (z n d) := by
  constructor
  · simp [pvaeModelLogJoint, plateLogProb, toEventLogProb, Fintype.sum_prod_type]
  · simp [pvaeGuideLogProb, plateLogProb, toEventLogProb]

/-- A driver step on an aborted state does nothing. -/
theorem driverStep_of_aborted (s : DriverState) (e : ℕ) (l : EvalLoss)
    (h : s.aborted = true) : driverStep s e l = s := by
  simp [driverStep, h]

/-- Once aborted, the driver loop leaves the state unchanged. -/
theorem runDriverAux_of_aborted (s : DriverState) (e : ℕ) (ls : List EvalLoss)
    (h : s.aborted = true) : runDriverAux s e ls = s := by
  induction ls generalizing s e with
  | nil => rfl
  | cons l ls ih =>
    rw [runDriverAux, driverStep_of_aborted s e l h]
    exact ih s (e + 1) h

/-- The driver loop splits over list concatenation. -/
theorem runDriverAux_append (s : DriverState) (e : ℕ) (l1 l2 : List EvalLoss) :
    runDriverAux s e (l1 ++ l2) = runDriverAux (runDriverAux s e l1) (e + l1.length) l2 := by
  induction l1 generalizing s e with
  | nil => simp [runDriverAux]
  | cons x xs ih =>
    rw [List.cons_append, runDriverAux, runDriverAux, ih]
    have h : e + 1 + xs.length = e + (x :: xs).length := by
      simp [List.length_cons]; omega
    rw [h]

/-- C6 counterexample: a NaN evaluation loss is non-finite, yet the driver
neither aborts nor stops: after the losses NaN then 5 the loop has processed
the second evaluation epoch and written a checkpoint there. The claim that
any non-finite evaluation loss terminates the loop is therefore false on the
code, which only tests loss < 0. -/
theorem c6_nan_continues_counterexample :
    isNonFiniteOrNeg EvalLoss.nan = true ∧
    (runDriver [EvalLoss.nan, EvalLoss.finite 5]).aborted = false ∧
    (runDriver [EvalLoss.nan, EvalLoss.finite 5]).saves = [1] := by
  refine ⟨rfl, ?_, ?_⟩ <;> rfl

/-- C6 amended: whenever an evaluation loss compares less than zero (a
negative finite value or negative infinity), the driver terminates the epoch
loop immediately: nothing after that epoch is processed, its best watermark
and checkpoint list stay those of the earlier epochs, and no checkpoint
is written at the aborting epoch; a NaN or positive-infinite loss does not
trigger this termination. -/
theorem c6_negative_loss_aborts (pre post : List EvalLoss) (l : EvalLoss)
    (h1 : (runDriver pre).aborted = false) (h2 : ltZero l = true) :
    runDriver (pre ++ l :: post) =
      { best := (runDriver pre).best, saves := (runDriver pre).saves, aborted := true } := by
  have hstep : driverStep (runDriver pre) (0 + pre.length) l
      = { best := (runDriver pre).best, saves := (runDriver pre).saves, aborted := true } := by
    simp [driverStep, h1, h2]
  rw [runDriver, runDriverAux_append]
  rw [show runDriverAux driverInit 0 pre = runDriver pre from rfl]
  rw [runDriverAux, hstep]
  exact runDriverAux_of_aborted _ _ _ rfl

/-- C6 witness: with a first evaluation loss of 3, a second of -1 and a third
epoch pending, the loop aborts at the -1 epoch keeping the earlier state. -/
theorem c6_negative_loss_aborts_witness :
    (runDriver [EvalLoss.finite 3]).aborted = false ∧
    ltZero (EvalLoss.finite (-1)) = true ∧
    runDriver ([EvalLoss.finite 3] ++ EvalLoss.finite (-1) :: [EvalLoss.finite 0]) =
      { best := (runDriver [EvalLoss.finite 3]).best,
        saves := (runDriver [EvalLoss.finite 3]).saves, aborted := true } :=
  ⟨rfl, rfl,
    c6_negative_loss_aborts [EvalLoss.finite 3] [EvalLoss.finite 0]
      (EvalLoss.finite (-1)) rfl rfl⟩

/-- C7 counterexample: an evaluation loss of -1 at the first evaluation epoch
is strictly lower than the initial infinite watermark, so the claim requires
a checkpoint there and a watermark of -1; but the negative-loss break fires
first, so the code writes no checkpoint and leaves the watermark at positive
infinity. -/
theorem c7_negative_epoch_counterexample :
    flt (EvalLoss.finite (-1)) driverInit.best = true ∧
    (runDriver [EvalLoss.finite (-1)]).saves = [] ∧
    (runDriver [EvalLoss.finite (-1)]).best = EvalLoss.posInf := by
  refine ⟨rfl, rfl, rfl⟩

/-- Comparison of a rational against an optional running minimum. -/
def qltOpt (q : ℚ) : Option ℚ → Prop
  | none => True
  | some m => q < m

/-- A rational is below the minimum of a list exactly when it is below every
element of the list. -/
theorem qltOpt_minOf_iff (q : ℚ) (l : List ℚ) : qltOpt q (minOf l) ↔ ∀ p ∈ l, q < p := by
  induction l with
  | nil => simp [minOf, qltOpt]
  | cons a as ih =>
    cases h : minOf as with
    | none =>
      rw [h] at ih
      have has : ∀ p ∈ as, q < p := ih.mp trivial
      simp only [minOf, h, Option.elim_none, qltOpt, List.forall_mem_cons]
      exact ⟨fun hq => ⟨hq, has⟩, fun hq => hq.1⟩
    | some m =>
      rw [h] at ih
      simp only [qltOpt] at ih
      simp only [minOf, h, Option.elim_some, qltOpt, List.forall_mem_cons, lt_min_iff]
      exact ⟨fun hq => ⟨hq.1, ih.mp hq.2⟩, fun hq => ⟨hq.1, ih.mpr hq.2⟩⟩

/-- The float comparison loss < best performed by the driver agrees with the
mathematical comparison against the minimum of the previously observed
finite losses. -/
theorem flt_embedOpt_minOf (q : ℚ) (l : List ℚ) :
    flt (.finite q) (embedOpt (minOf l)) = true ↔ ∀ p ∈ l, q < p := by
  rw [← qltOpt_minOf_iff]
  cases h : minOf l with
  | none => simp [embedOpt, flt, qltOpt]
  | some m => simp [embedOpt, flt, qltOpt]

/-- An empty list is the only list with no minimum. -/
theorem minOf_eq_none (l : List ℚ) (h : minOf l = none) : l = [] := by
  cases l with
  | nil => rfl
  | cons a as => simp [minOf] at h

/-- Minimum of a list extended on the right by one element. -/
theorem minOf_append_singleton (prev : List ℚ) (q : ℚ) :
    minOf (prev ++ [q]) = some ((minOf prev).elim q (fun m => min m q)) := by
  induction prev with
  | nil => simp [minOf]
  | cons a as ih =>
    cases h : minOf as with
    | none =>
      rw [h] at ih
      simp only [Option.elim_none] at ih
      simp [minOf, ih, h]
    | some m =>
      rw [h] at ih
      simp only [Option.elim_some] at ih
      simp [minOf, ih, h, min_assoc]

/-- Running the driver from a non-aborted state whose watermark is the
minimum of the losses already observed, over further non-negative finite
losses, keeps it non-aborted, moves the watermark to the minimum of all
observed losses, and appends exactly the strictly-improving epochs to the
checkpoint list. -/
theorem runDriverAux_nonneg (rest : List ℚ) :
    ∀ (prev : List ℚ) (saves : List ℕ), (∀ q ∈ rest, 0 ≤ q) →
    runDriverAux { best := embedOpt (minOf prev), saves := saves, aborted := false }
        prev.length (rest.map EvalLoss.finite) =
      { best := embedOpt (minOf (prev ++ rest)), saves := saves ++ savedEpochs prev rest,
        aborted := false } := by
  induction rest with
  | nil =>
    intro prev saves _
    simp [runDriverAux, savedEpochs]
  | cons q rs ih =>
    intro prev saves h
    have hq : 0 ≤ q := h q (by simp)
    have hrs : ∀ p ∈ rs, 0 ≤ p := fun p hp => h p (by simp [hp])
    have hnotlt : ltZero (EvalLoss.finite q) = false := by
      simp only [ltZero, decide_eq_false_iff_not]
      exact not_lt.mpr hq
    rw [List.map_cons, runDriverAux]
    by_cases hc : ∀ p ∈ prev, q < p
    · have hflt : flt (EvalLoss.finite q) (embedOpt (minOf prev)) = true :=
        (flt_embedOpt_minOf q prev).mpr hc
      have hstep :
          driverStep { best := embedOpt (minOf prev), saves := saves, aborted := false }
              prev.length (EvalLoss.finite q)
            = { best := EvalLoss.finite q, saves := saves ++ [prev.length],
                aborted := false } := by
        simp [driverStep, hnotlt, hflt]
      have hbest : EvalLoss.finite q = embedOpt (minOf (prev ++ [q])) := by
        rw [minOf_append_singleton]
        cases h2 : minOf prev with
        | none => simp [embedOpt]
        | some m =>
          have hqm : q < m := by
            have h3 := (qltOpt_minOf_iff q prev).mpr hc
            rw [h2] at h3
            exact h3
          simp [embedOpt, min_eq_right (le_of_lt hqm)]
      have hlen : prev.length + 1 = (prev ++ [q]).length := by simp
      rw [hstep, hbest, hlen, ih (prev ++ [q]) (saves ++ [prev.length]) hrs]
      simp only [savedEpochs]
      rw [if_pos hc]
      simp [List.append_assoc]
    · have hflt : flt (EvalLoss.finite q) (embedOpt (minOf prev)) = false := by
        rw [← Bool.not_eq_true]
        intro hcon
        exact hc ((flt_embedOpt_minOf q prev).mp hcon)
      have hstep :
          driverStep { best := embedOpt (minOf prev), saves := saves, aborted := false }
              prev.length (EvalLoss.finite q)
            = { best := embedOpt (minOf prev), saves := saves, aborted := false } := by
        simp [driverStep, hnotlt, hflt]
      have hbest : embedOpt (minOf prev) = embedOpt (minOf (prev ++ [q])) := by
        rw [minOf_append_singleton]
        cases h2 : minOf prev with
        | none =>
          exfalso
          apply hc
          intro p hp
          rw [minOf_eq_none prev h2] at hp
          simp at hp
        | some m =>
          have hmq : m ≤ q := by
            by_contra hcon
            have h3 : qltOpt q (minOf prev) := by
              rw [h2]
              exact lt_of_not_le hcon
            exact hc ((qltOpt_minOf_iff q prev).mp h3)
          simp [embedOpt, min_eq_left hmq]
      have hlen : prev.length + 1 = (prev ++ [q]).length := by simp
      rw [hstep, hbest, hlen, ih (prev ++ [q]) saves hrs]
      simp only [savedEpochs]
      rw [if_neg hc]
      simp [List.append_assoc]

/-- C7 amended: on a run whose evaluation losses are all non-negative finite
values (so the negative-loss abort never precedes the checkpoint logic and
no NaN poisons the float comparisons), the driver never aborts, its best
watermark ends at the minimum evaluation loss observed (initially positive
infinity for no observations), and the checkpoint is written exactly at the
evaluation epochs whose loss is strictly lower than every previously observed
one; on runs with a negative evaluation loss the break fires before the
checkpoint block, so that epoch is neither saved nor reflected in the
watermark. -/
theorem c7_checkpoint_watermark (losses : List ℚ) (h : ∀ q ∈ losses, 0 ≤ q) :
    runDriver (losses.map EvalLoss.finite) =
      { best := embedOpt (minOf losses), saves := savedEpochs [] losses,
        aborted := false } := by
  have h2 := runDriverAux_nonneg losses [] [] h
  simp only [List.nil_append, List.length_nil] at h2
  rw [runDriver]
  have hinit : driverInit =
      { best := embedOpt (minOf []), saves := ([] : List ℕ), aborted := false } := rfl
  rw [hinit, h2]

/-- C7 witness: with evaluation losses 3, 5, 2 the driver keeps the minimum 2
as watermark and checkpoints exactly at epochs 0 and 2, matching the
improving-epoch specification. -/
theorem c7_checkpoint_watermark_witness :
    (∀ q ∈ [(3 : ℚ), 5, 2], 0 ≤ q) ∧
    runDriver ([(3 : ℚ), 5, 2].map EvalLoss.finite) =
      { best := embedOpt (minOf [(3 : ℚ), 5, 2]), saves := savedEpochs [] [(3 : ℚ), 5, 2],
        aborted := false } :=
  ⟨by decide, c7_checkpoint_watermark [3, 5, 2] (by decide)⟩

/-- C10: with any loader yielding at least one minibatch, both train and
evaluate of rgbd_vae.py raise AttributeError for the attribute is_availabe of
torch.cuda while processing the first minibatch, whatever the cuda
availability, the per-batch losses or the dataset size, so neither function
ever returns a loss value. -/
theorem c10_train_evaluate_attribute_error {α : Type} (cudaAvail : Bool)
    (step evalLoss : α → ℚ) (batches : List α) (dsize : ℚ) (h : batches ≠ []) :
    rgbdVaeTrain cudaAvail step batches dsize =
      .error (.attributeError "torch.cuda" "is_availabe") ∧
    rgbdVaeEvaluate cudaAvail evalLoss batches dsize =
      .error (.attributeError "torch.cuda" "is_availabe") := by
  obtain ⟨x, xs, rfl⟩ := List.exists_cons_of_ne_nil h
  constructor
  · rfl
  · rfl

/-- C10 witness: on the one-batch loader [0] both functions raise the
AttributeError. -/
theorem c10_train_evaluate_attribute_error_witness :
    rgbdVaeTrain true (fun q : ℚ => q) [(0 : ℚ)] 1 =
      .error (.attributeError "torch.cuda" "is_availabe") ∧
    rgbdVaeEvaluate true (fun q : ℚ => q) [(0 : ℚ)] 1 =
      .error (.attributeError "torch.cuda" "is_availabe") :=
  c10_train_evaluate_attribute_error true (fun q => q) (fun q => q) [0] 1
    (List.cons_ne_nil 0 [])
